import Mathlib

/-!
Shallow embedding of the Chord-style DHT node from the repository
(`internal/dht/node.go` and its sibling variants, `internal/dht/helper.go`,
`internal/transport/{client,server}.go`), together with theorems settling
the frozen claims about it.

Conventions of the embedding:
* Go `int` values that are always non-negative (ring ids, key ids) are
  modelled as `Nat`; the few places where Go computes possibly negative
  intermediate indices (`SetNetwork`) use `Int` with Go's truncated `%`
  (`Int.tmod`).
* The SHA-1 digest inside `KeyToRingId` is abstracted as a parameter
  `h : String → Nat`; `KeyToRingId` keeps the final `% mod` reduction of
  the source.  No claim depends on concrete SHA-1 values.
* The `sync.Map` key-value store is modelled as an association list, the
  transport interface as explicit oracle functions (`Option` result for
  fallible RPCs), and Go slice indexing that can panic as `Option`-valued
  access.
* The repository contains two parallel versions of several functions
  (two `helper.go` interval files, two `node.go` maintenance files).
  The `Dht` namespace holds the interval predicates of the variant with an
  explicit `a == b` branch; the `Helper` namespace holds the
  `internal/dht/helper.go` variant.  The `Chord` namespace embeds the
  full-featured `node.go` (the one whose transport exposes `IsInactive`),
  and the `Dht2` namespace the second maintenance variant (the one whose
  transport exposes `IsCrashed`) where the two differ.
-/

namespace DhtSpec

/-- Source `M = 16` ring bits, as in the source. -/
def M : Nat := 16

/-- Source `ID_SPACE_SIZE = 1 << M = 65536`. -/
def ID_SPACE_SIZE : Nat := 2 ^ M

/-- Source `KeyToRingId(key, mod)`: SHA-1 digest of `key` reduced `% mod`.
The digest itself is abstracted as the parameter `h`; the reduction
modulo the ring size is kept from the source. -/
def KeyToRingId (h : String → Nat) (key : String) (m : Nat) : Nat :=
  h key % m

namespace Dht

/-- Source `InIntervalOpen(x, a, b)` — variant with the explicit `a == b` branch:
`a < b`: `x > a && x < b`; `a == b`: `x != a`; wrap-around: `x > a || x < b`. -/
def InIntervalOpen (x a b : Nat) : Bool :=
  if a < b then decide (x > a) && decide (x < b)
  else if a = b then decide (x ≠ a)
  else decide (x > a) || decide (x < b)

/-- Source `InIntervalLeftInclusive(x, a, b)` — `a < b`: `x >= a && x < b`;
`a == b`: `true`; wrap-around: `x >= a || x < b`. -/
def InIntervalLeftInclusive (x a b : Nat) : Bool :=
  if a < b then decide (x ≥ a) && decide (x < b)
  else if a = b then true
  else decide (x ≥ a) || decide (x < b)

/-- Source `InIntervalRightInclusive(x, a, b)` — `a < b`: `x > a && x <= b`;
`a == b`: `true`; wrap-around: `x > a || x <= b`. -/
def InIntervalRightInclusive (x a b : Nat) : Bool :=
  if a < b then decide (x > a) && decide (x ≤ b)
  else if a = b then true
  else decide (x > a) || decide (x ≤ b)

end Dht

namespace Helper

/-- Source `internal/dht/helper.go` `InIntervalOpen`: `a < b`: `x > a && x < b`;
otherwise `x > a || x < b` (no separate `a == b` branch). -/
def InIntervalOpen (x a b : Nat) : Bool :=
  if a < b then decide (x > a) && decide (x < b)
  else decide (x > a) || decide (x < b)

/-- Source `internal/dht/helper.go` `InIntervalRightInclusive`: `a < b`:
`x >= a && x <= b` (note the `>=`); otherwise `x > a || x <= b`. -/
def InIntervalRightInclusive (x a b : Nat) : Bool :=
  if a < b then decide (x ≥ a) && decide (x ≤ b)
  else decide (x > a) || decide (x ≤ b)

end Helper

/-- The half-open ring interval `(a, b]` as the spec words it: when
`a < b` it is `a < x ∧ x ≤ b` (exclusive at `a`), when `a = b` it holds
for every `x`, and when `a > b` (wrap-around) it is `x > a ∨ x ≤ b`.
Written from the spec's words, to be compared with the two source
implementations. -/
def claimHalfOpenRight (x a b : Nat) : Prop :=
  if a < b then a < x ∧ x ≤ b
  else if a = b then True
  else x > a ∨ x ≤ b

instance (x a b : Nat) : Decidable (claimHalfOpenRight x a b) := by
  unfold claimHalfOpenRight
  infer_instance

/-- Go struct `node`: `(id int, address string)`.  The empty address `""`
denotes "none"; the zero value is `⟨0, ""⟩`. -/
structure NodeRef where
  id : Nat
  address : String
deriving Repr, DecidableEq

/-- Go struct `fingerEntry`: `(start int, node node)`. -/
structure FingerEntry where
  start : Nat
  node : NodeRef
deriving Repr, DecidableEq

/-- The mutable state of a `Node`: the embedded `self` ref, predecessor,
successor, finger table and the key-value store (`sync.Map` modelled as an
association list whose first binding for a key wins). -/
structure NodeSt where
  self : NodeRef
  predecessor : NodeRef
  successor : NodeRef
  finger : List FingerEntry
  data : List (String × String)
deriving Repr, DecidableEq

/-- Source `sync.Map.Store key value`: overwrite the binding for `key`. -/
def dataStore (d : List (String × String)) (key value : String) :
    List (String × String) :=
  (key, value) :: d.filter (fun p => p.1 ≠ key)

namespace Chord

/-- Source `SetSuccessor(successorAddr)`: unconditionally replace the successor,
recomputing its id from the address. -/
def SetSuccessor (h : String → Nat) (st : NodeSt) (successorAddr : String) :
    NodeSt :=
  { st with successor := ⟨KeyToRingId h successorAddr ID_SPACE_SIZE, successorAddr⟩ }

/-- Source `SetPredecessor(predecessorAddr)`: the empty address clears the
predecessor to the zero value; otherwise accept when the current
predecessor is empty or the new id differs from `self.id`. -/
def SetPredecessor (h : String → Nat) (st : NodeSt) (predecessorAddr : String) :
    NodeSt :=
  if predecessorAddr = "" then { st with predecessor := ⟨0, ""⟩ }
  else
    let potentialPredecessorId := KeyToRingId h predecessorAddr ID_SPACE_SIZE
    if st.predecessor.address = "" ∨ potentialPredecessorId ≠ st.self.id then
      { st with predecessor := ⟨potentialPredecessorId, predecessorAddr⟩ }
    else st

/-- The loop body of `closestPrecedingNode`: walk the finger entries (the
source walks indices `M-1 .. 0`, so the caller passes the reversed table)
and return the first target in the open interval `(self.id, keyId)`. -/
def cpnLoop (selfId keyId : Nat) : List FingerEntry → Option NodeRef
  | [] => none
  | f :: fs =>
    if Dht.InIntervalOpen f.node.id selfId keyId then some f.node
    else cpnLoop selfId keyId fs

/-- Source `closestPrecedingNode(keyId)`: first finger target (scanning from index
`M-1` down to `0`) in the open interval `(self.id, keyId)`, or the
successor when none matches. -/
def closestPrecedingNode (st : NodeSt) (keyId : Nat) : NodeRef :=
  (cpnLoop st.self.id keyId st.finger.reverse).getD st.successor

/-- The loop body of `closestPrecedingNodes`: collect every finger target
in the open interval `(self.id, keyId)`, in scan order. -/
def cpnsLoop (selfId keyId : Nat) : List FingerEntry → List String
  | [] => []
  | f :: fs =>
    if Dht.InIntervalOpen f.node.id selfId keyId then
      f.node.address :: cpnsLoop selfId keyId fs
    else cpnsLoop selfId keyId fs

/-- Source `closestPrecedingNodes(keyId)`: the candidate addresses collected by
scanning the finger table from index `M-1` down to `0`.  (The source
returns only the matching fingers; it does not append the successor.) -/
def closestPrecedingNodes (st : NodeSt) (keyId : Nat) : List String :=
  cpnsLoop st.self.id keyId st.finger.reverse

/-- Source `Put(key, value)`: hash the key; if the key id is in
`(predecessor.id, self.id]` store locally and return `""`, otherwise
return the closest preceding node's address.  (The source performs no
emptiness check on the predecessor; the zero value contributes id `0`.) -/
def Put (h : String → Nat) (st : NodeSt) (key value : String) :
    NodeSt × String :=
  let keyId := KeyToRingId h key ID_SPACE_SIZE
  if Dht.InIntervalRightInclusive keyId st.predecessor.id st.self.id then
    ({ st with data := dataStore st.data key value }, "")
  else
    (st, (closestPrecedingNode st keyId).address)

/-- Source `Get(key)`: hash the key; if the key id is in
`(predecessor.id, self.id]` read locally — `(value, "", none)` on a hit,
the "key not found" error on a miss; otherwise
`("", closestPrecedingNode.address, none)`. -/
def Get (h : String → Nat) (st : NodeSt) (key : String) :
    String × String × Option String :=
  let keyId := KeyToRingId h key ID_SPACE_SIZE
  if Dht.InIntervalRightInclusive keyId st.predecessor.id st.self.id then
    match List.lookup key st.data with
    | some v => (v, "", none)
    | none => ("", "", some "key not found")
  else
    ("", (closestPrecedingNode st keyId).address, none)

/-- The candidate loop of `FindSuccessor`: invoke the remote
`findSuccessor` RPC (`rpc c = none` models a transport error) on each
candidate in order and return the first successful answer. -/
def findFirstSuccess (rpc : String → Option String) : List String → Option String
  | [] => none
  | c :: cs =>
    match rpc c with
    | some s => some s
    | none => findFirstSuccess rpc cs

/-- Source `FindSuccessor(keyId)`: return the successor when the key id is in
`(self.id, successor.id]`; otherwise try the closest-preceding candidates
remotely and fall back to the local successor when all fail.  The Go
function never returns an error. -/
def FindSuccessor (rpc : String → Option String)
    (st : NodeSt) (keyId : Nat) : String :=
  if Dht.InIntervalRightInclusive keyId st.self.id st.successor.id then
    st.successor.address
  else
    (findFirstSuccess rpc (closestPrecedingNodes st keyId)).getD
      st.successor.address

/-- The accumulator loop of `closestSuccessorNodes` over the finger table:
append each finger address that is neither the node's own address nor
already collected.  (In the source the `seen` set holds exactly the
addresses already appended, so membership in the accumulator is the same
test.) -/
def cssLoop (selfAddr : String) : List FingerEntry → List String → List String
  | [], acc => acc
  | f :: fs, acc =>
    if f.node.address ≠ selfAddr ∧ f.node.address ∉ acc then
      cssLoop selfAddr fs (acc ++ [f.node.address])
    else cssLoop selfAddr fs acc

/-- Source `closestSuccessorNodes()`: the immediate successor first (when it is
not the node itself), then each distinct finger address different from the
node's own, preserving finger-table order. -/
def closestSuccessorNodes (st : NodeSt) : List String :=
  cssLoop st.self.address st.finger
    (if st.successor.address ≠ st.self.address then [st.successor.address] else [])

/-- Outcome of the candidate-probing loop inside `Stabilize`. -/
inductive LoopOut where
  /-- no candidate's `getPredecessor` succeeded (`liveCandidateExists` false) -/
  | noLive : LoopOut
  /-- a candidate succeeded and the loop stopped without changing the successor -/
  | keep : LoopOut
  /-- the loop stopped by `SetSuccessor(addr)` -/
  | adopt (addr : String) : LoopOut
deriving Repr, DecidableEq

/-- The candidate loop of `Stabilize`: probe each candidate with
`getPredecessor` (`gp c = none` models a transport error).  An empty
returned predecessor adopts the candidate; a returned predecessor equal to
the node's own address stops; a returned predecessor inside
`(self.id, successor.id)` is adopted; otherwise continue with
`liveCandidateExists = true`. -/
def stabilizeLoop (h : String → Nat) (selfRef succ : NodeRef)
    (gp : String → Option String) :
    List String → Bool → LoopOut
  | [], live => if live then .keep else .noLive
  | c :: cs, live =>
    match gp c with
    | none => stabilizeLoop h selfRef succ gp cs live
    | some predAddr =>
      if predAddr = "" then .adopt c
      else if predAddr = selfRef.address then .keep
      else if Dht.InIntervalOpen (KeyToRingId h predAddr ID_SPACE_SIZE)
          selfRef.id succ.id then .adopt predAddr
      else stabilizeLoop h selfRef succ gp cs true

/-- Source `Stabilize()`: when the successor is the node itself, adopt the own
predecessor if it exists, differs from self and lies in
`(self.id, successor.id)`.  Otherwise probe `closestSuccessorNodes` and
either adopt a new successor, keep the current one, or — when no candidate
responded — fall back to self.  Afterwards notify the resulting successor
unless it is the node itself; the returned `Option String` is the notify
target. -/
def stabilizeStep (h : String → Nat) (gp : String → Option String)
    (st : NodeSt) : NodeSt :=
  if st.successor.address = st.self.address then
    if st.predecessor.address ≠ "" ∧ st.predecessor.address ≠ st.self.address then
      if Dht.InIntervalOpen
          (KeyToRingId h st.predecessor.address ID_SPACE_SIZE)
          st.self.id st.successor.id then
        SetSuccessor h st st.predecessor.address
      else st
    else st
  else
    match stabilizeLoop h st.self st.successor gp (closestSuccessorNodes st) false with
    | .noLive => SetSuccessor h st st.self.address
    | .keep => st
    | .adopt a => SetSuccessor h st a

/-- Source `Stabilize` proper: run the successor-refinement step, then notify the
resulting successor of our address unless it is the node itself.  The
second component is the notify target. -/
def Stabilize (h : String → Nat) (gp : String → Option String)
    (st : NodeSt) : NodeSt × Option String :=
  let st1 := stabilizeStep h gp st
  (st1, if st1.successor.address = st.self.address then none
        else some st1.successor.address)

/-- Source `CheckPredecessor()` (variant whose transport exposes `IsInactive`):
do nothing when the predecessor is empty; otherwise ping it
(`ping a = (alive, hasErr)`) and clear the predecessor when the ping
reports not-alive **or** returned an error. -/
def CheckPredecessor (h : String → Nat) (ping : String → Bool × Bool)
    (st : NodeSt) : NodeSt :=
  if st.predecessor.address = "" then st
  else
    let r := ping st.predecessor.address
    if !r.1 || r.2 then SetPredecessor h st "" else st

/-- Source `resetToStartingState()` (variant whose transport exposes
`IsInactive`): successor becomes self, predecessor becomes the zero value,
and every finger entry is overwritten with `fingerEntry{node: self}` — a
composite literal whose omitted `start` field is the zero value `0`. -/
def resetToStartingState (st : NodeSt) : NodeSt :=
  let self : NodeRef := ⟨st.self.id, st.self.address⟩
  { st with
    successor := self
    predecessor := ⟨0, ""⟩
    finger := List.replicate M ⟨0, self⟩ }

end Chord

namespace Dht2

/-- Source `CheckPredecessor()` (variant whose transport exposes `IsCrashed`):
do nothing when the predecessor is empty; on a ping **error** it only logs
and returns, keeping the predecessor; it clears the predecessor only when
the ping succeeded and reported not-alive. -/
def CheckPredecessor (h : String → Nat) (ping : String → Bool × Bool)
    (st : NodeSt) : NodeSt :=
  if st.predecessor.address = "" then st
  else
    let r := ping st.predecessor.address
    if r.2 then st
    else if !r.1 then Chord.SetPredecessor h st "" else st

/-- Source `resetToStartingState()` (variant whose transport exposes
`IsCrashed`): successor becomes self and predecessor the zero value; the
function then builds a fresh finger table in a **local** variable that is
never assigned to `n.finger`, so the node's finger table is left
unchanged. -/
def resetToStartingState (st : NodeSt) : NodeSt :=
  { st with
    successor := ⟨st.self.id, st.self.address⟩
    predecessor := ⟨0, ""⟩ }

end Dht2

/-- Insert a node into a list sorted by ascending id (model of
`sort.Slice(nodes, nodes[i].id < nodes[j].id)`; the Go sort leaves the
order of equal ids unspecified, and nothing below depends on it). -/
def insertById (nd : NodeRef) : List NodeRef → List NodeRef
  | [] => [nd]
  | x :: xs => if nd.id < x.id then nd :: x :: xs else x :: insertById nd xs

/-- Sort a node list by ascending id. -/
def sortById : List NodeRef → List NodeRef
  | [] => []
  | x :: xs => insertById x (sortById xs)

/-- The `selfIndex` scan of `SetNetwork`: index of the first node whose id
equals `self.id`, `-1` when absent. -/
def selfIndexLoop (selfId : Nat) : List NodeRef → Int
  | [] => -1
  | nd :: rest =>
    if nd.id = selfId then 0
    else
      let r := selfIndexLoop selfId rest
      if r = -1 then -1 else r + 1

/-- Go slice indexing `l[i]`: `none` models the out-of-range panic
(negative index or index ≥ length). -/
def listAt {α : Type} (l : List α) (i : Int) : Option α :=
  if i < 0 then none else l.get? i.toNat

namespace Chord

/-- Source `SetNetwork(network)`: hash and sort the supplied addresses, build the
finger table (each entry defaults to `nodes[0]` before scanning for the
first node with `id >= fingerKey` — an unconditional `nodes[0]` access),
locate `selfIndex` (`-1` when self is absent), compute the successor and
predecessor indices with Go's truncated `%` by `len(nodes)`, and install
successor, predecessor and finger table.  `none` models the runtime panic
(index out of range / division by zero) reached on an empty list. -/
def SetNetwork (h : String → Nat) (st : NodeSt) (network : List String) :
    Option NodeSt :=
  let nodes := sortById (network.map fun a =>
    (⟨KeyToRingId h a ID_SPACE_SIZE, a⟩ : NodeRef))
  (listAt nodes 0).bind fun nzero =>
    let finger := (List.range M).map fun i =>
      let fingerKey := (st.self.id + 2 ^ i) % ID_SPACE_SIZE
      ({ start := fingerKey
         node := (nodes.find? (fun nd => decide (fingerKey ≤ nd.id))).getD nzero } :
        FingerEntry)
    (listAt nodes
        (Int.tmod (selfIndexLoop st.self.id nodes + 1)
          (nodes.length : Int))).bind fun succNode =>
      (listAt nodes
          (Int.tmod (selfIndexLoop st.self.id nodes - 1 + (nodes.length : Int))
            (nodes.length : Int))).bind fun predNode =>
        some { SetPredecessor h (SetSuccessor h st succNode.address)
                 predNode.address with finger := finger }

end Chord

namespace Transport

/-- What the HTTP middleware does with an incoming request. -/
inductive MwOutcome where
  /-- hand the request to the wrapped handler -/
  | pass : MwOutcome
  /-- answer directly with the given status, no handler runs -/
  | refuse (status : Nat) : MwOutcome
deriving Repr, DecidableEq

/-- Source `http.StatusServiceUnavailable`, written by `refuseRequest`. -/
def StatusServiceUnavailable : Nat := 503

/-- Source `crashMiddleware`: always pass `/sim-recover` through; refuse every
other request with 503 while the `inactive` flag is set. -/
def crashMiddleware (inactive : Bool) (path : String) : MwOutcome :=
  if path = "/sim-recover" then .pass
  else if inactive then .refuse StatusServiceUnavailable
  else .pass

/-- Result of `handleStorage` for a GET request. -/
inductive StorageOutcome where
  /-- Status 200 with the raw value as body -/
  | ok (body : String) : StorageOutcome
  /-- Status 404 via `http.NotFound` -/
  | notFound : StorageOutcome
  /-- the request is forwarded verbatim to the given address -/
  | forward (addr : String) : StorageOutcome
deriving Repr, DecidableEq

/-- The GET branch of `handleStorage`: call `node.Get`; an error answers
404; a non-empty next-node address forwards; otherwise 200 with the
value. -/
def handleStorageGet (h : String → Nat) (st : NodeSt) (key : String) :
    StorageOutcome :=
  match Chord.Get h st key with
  | (_, _, some _) => .notFound
  | (value, nextNodeAddress, none) =>
    if nextNodeAddress ≠ "" then .forward nextNodeAddress else .ok value

/-- The network-parameter parsing of `handleNetwork` (PUT): an absent or
empty `network` query parameter yields the empty list, otherwise split on
commas and trim each address. -/
def parseNetwork (networkStr : String) : List String :=
  if networkStr = "" then []
  else (networkStr.splitOn ",").map (fun a => a.trim)

end Transport

namespace Chord

/-- Source `Create(address)`: a fresh single-node ring — successor is self,
predecessor is the zero value, finger entry `i` has
`start = (self.id + 2^i) % ID_SPACE_SIZE` and targets self. -/
def Create (h : String → Nat) (address : String) : NodeSt :=
  let self : NodeRef := ⟨KeyToRingId h address ID_SPACE_SIZE, address⟩
  { self := self
    successor := self
    predecessor := ⟨0, ""⟩
    finger := (List.range M).map fun i =>
      ⟨(self.id + 2 ^ i) % ID_SPACE_SIZE, self⟩
    data := [] }

end Chord

namespace Test

/-- A concrete stand-in for the SHA-1-based hash, used to evaluate the
model on concrete inputs: `"a" ↦ 5`, `"b" ↦ 9`, `"k" ↦ 3`, else `0`. -/
def hT : String → Nat := fun s =>
  if s = "a" then 5 else if s = "b" then 9 else if s = "k" then 3 else 0

/-- A fresh node `"a"` (id 5) whose successor was set to `"b"` (id 9):
predecessor empty, successor ≠ self, fingers target self. -/
def stAB : NodeSt := Chord.SetSuccessor hT (Chord.Create hT "a") "b"

/-- Node `"a"` with predecessor `"b"` (id 9) installed. -/
def stPredB : NodeSt := Chord.SetPredecessor hT (Chord.Create hT "a") "b"

/-- Node `"a"` after fix-fingers installed `"b"` (id 9) in every finger
entry (the `start` fields keep their `Create` values). -/
def stFingersB : NodeSt :=
  let base := Chord.Create hT "a"
  { base with finger := base.finger.map fun f => { f with node := ⟨9, "b"⟩ } }

/-- Node `"a"` with successor `"b"` and every finger targeting `"b"`. -/
def stC3 : NodeSt := Chord.SetSuccessor hT stFingersB "b"

/-- A remote `findSuccessor` oracle: node `"b"` answers `"x"`, everything
else is unreachable. -/
def rpcT : String → Option String := fun c =>
  if c = "b" then some "x" else none

/-- A `getPredecessor` oracle on which every probe fails. -/
def gpNone : String → Option String := fun _ => none

/-- A ping oracle that always fails with a transport error
(`alive = false`, `err ≠ nil`). -/
def pingErr : String → Bool × Bool := fun _ => (false, true)

end Test

end DhtSpec

open DhtSpec

/-- C2: the `InIntervalRightInclusive` variant with the explicit `a == b`
branch agrees with the claimed `(a, b]` ring-interval semantics for all
`x, a, b`, but the `internal/dht/helper.go` variant does not: at
`x = 1, a = 1, b = 2` it returns `true` although `1 ∉ (1, 2]` — when
`a < b` it includes the left endpoint (`x >= a` instead of `x > a`). -/
theorem c2_interval_right_inclusive :
    (∀ x a b : Nat, Dht.InIntervalRightInclusive x a b = true ↔ claimHalfOpenRight x a b)
    ∧ Helper.InIntervalRightInclusive 1 1 2 = true
    ∧ ¬ claimHalfOpenRight 1 1 2
    ∧ Dht.InIntervalRightInclusive 1 1 2 = false := by
  refine ⟨?_, by decide, by decide, by decide⟩
  intro x a b
  unfold Dht.InIntervalRightInclusive claimHalfOpenRight
  split
  · simp
  · split
    · simp
    · simp

section HelperLemmas

/-- The candidate loop collects exactly the matching fingers, in scan
order. -/
theorem cpnsLoop_eq_filter_map (selfId k : Nat) (l : List FingerEntry) :
    Chord.cpnsLoop selfId k l
      = (l.filter (fun f => Dht.InIntervalOpen f.node.id selfId k)).map
          (fun f => f.node.address) := by
  induction l with
  | nil => rfl
  | cons f fs ih =>
    cases hf : Dht.InIntervalOpen f.node.id selfId k <;>
      simp [Chord.cpnsLoop, hf, ih]

/-- If every candidate's RPC fails, the first-success loop fails. -/
theorem findFirstSuccess_eq_none (rpc : String → Option String)
    (l : List String) (hall : ∀ c ∈ l, rpc c = none) :
    Chord.findFirstSuccess rpc l = none := by
  induction l with
  | nil => rfl
  | cons c cs ih =>
    have hc := hall c (by simp)
    simp only [Chord.findFirstSuccess, hc]
    exact ih fun x hx => hall x (by simp [hx])

/-- The first-success loop returns the answer of the first candidate whose
RPC succeeds. -/
theorem findFirstSuccess_first (rpc : String → Option String)
    (l : List String) (i : Nat) (hi : i < l.length) (s : String)
    (hbefore : ∀ j (hj : j < i), rpc (l.get ⟨j, Nat.lt_trans hj hi⟩) = none)
    (hsucc : rpc (l.get ⟨i, hi⟩) = some s) :
    Chord.findFirstSuccess rpc l = some s := by
  induction l generalizing i with
  | nil => exact absurd hi (by simp)
  | cons c cs ih =>
    cases i with
    | zero =>
      simp only [List.get] at hsucc
      simp [Chord.findFirstSuccess, hsucc]
    | succ n =>
      have hc : rpc c = none := hbefore 0 (Nat.succ_pos n)
      simp only [Chord.findFirstSuccess, hc]
      exact ih n (Nat.lt_of_succ_lt_succ hi)
        (fun j hj => hbefore (j + 1) (Nat.succ_lt_succ hj)) hsucc

end HelperLemmas

/-- C1 (amended): ownership of a key id is decided solely by the
ring-interval test `keyId ∈ (predecessor.id, self.id]`, in which an empty
predecessor contributes its zero-value id `0`; the code never checks
whether the predecessor address is known.  When the test holds, `Put`
stores locally and returns the empty forward address and `Get` reads
locally; when it fails, both return the closest preceding node's address
as the forward address. -/
theorem c1_ownership_amended (h : String → Nat) (st : NodeSt)
    (key value : String) :
    (Dht.InIntervalRightInclusive (KeyToRingId h key ID_SPACE_SIZE)
        st.predecessor.id st.self.id = true →
      Chord.Put h st key value
          = ({ st with data := dataStore st.data key value }, "")
        ∧ (Chord.Get h st key).2.1 = "")
    ∧ (Dht.InIntervalRightInclusive (KeyToRingId h key ID_SPACE_SIZE)
        st.predecessor.id st.self.id = false →
      Chord.Put h st key value
          = (st, (Chord.closestPrecedingNode st
              (KeyToRingId h key ID_SPACE_SIZE)).address)
        ∧ Chord.Get h st key
          = ("", (Chord.closestPrecedingNode st
              (KeyToRingId h key ID_SPACE_SIZE)).address, none)) := by
  constructor
  · intro hmem
    constructor
    · unfold Chord.Put
      simp [hmem]
    · unfold Chord.Get
      simp only [hmem]
      cases List.lookup key st.data <;> simp
  · intro hmem
    refine ⟨?_, ?_⟩
    · simp [Chord.Put, hmem]
    · simp [Chord.Get, hmem]

/-- C1 witness: node `"a"` (id 5) with predecessor `"b"` (id 9) owns key
`"k"` (id 3 ∈ (9, 5] across the wrap), stores it locally and reads
locally. -/
theorem c1_ownership_amended_witness :
    Chord.Put Test.hT Test.stPredB "k" "v"
        = ({ Test.stPredB with data := dataStore Test.stPredB.data "k" "v" }, "")
      ∧ (Chord.Get Test.hT Test.stPredB "k").2.1 = "" :=
  (c1_ownership_amended Test.hT Test.stPredB "k" "v").1 (by decide)

/-- C1 counterexample: a node `"a"` (id 5) with an **empty** predecessor
and successor `"b" ≠ self` still claims ownership of key `"k"`
(id 3 ∈ (0, 5]): `Put` returns the empty forward address and stores the
pair locally, instead of returning a forwarding address. -/
theorem c1_counterexample :
    Test.stAB.predecessor.address = ""
      ∧ Test.stAB.successor.address ≠ Test.stAB.self.address
      ∧ (Chord.Put Test.hT Test.stAB "k" "v").2 = ""
      ∧ List.lookup "k" (Chord.Put Test.hT Test.stAB "k" "v").1.data
          = some "v" := by decide

/-- C3: `FindSuccessor(k)` returns the local successor when
`k ∈ (self.id, successor.id]`; otherwise it walks the closest-preceding
candidates in order, returns the first successful remote answer, and falls
back to the local successor when every candidate's RPC fails. -/
theorem c3_find_successor (rpc : String → Option String) (st : NodeSt)
    (k : Nat) :
    (Dht.InIntervalRightInclusive k st.self.id st.successor.id = true →
       Chord.FindSuccessor rpc st k = st.successor.address)
    ∧ (Dht.InIntervalRightInclusive k st.self.id st.successor.id = false →
       ((∀ c ∈ Chord.closestPrecedingNodes st k, rpc c = none) →
           Chord.FindSuccessor rpc st k = st.successor.address)
       ∧ (∀ i (hi : i < (Chord.closestPrecedingNodes st k).length)
             (s : String),
           (∀ j (hj : j < i),
             rpc ((Chord.closestPrecedingNodes st k).get
               ⟨j, Nat.lt_trans hj hi⟩) = none) →
           rpc ((Chord.closestPrecedingNodes st k).get ⟨i, hi⟩) = some s →
           Chord.FindSuccessor rpc st k = s)) := by
  constructor
  · intro hmem
    simp [Chord.FindSuccessor, hmem]
  · intro hmem
    constructor
    · intro hall
      simp [Chord.FindSuccessor, hmem,
        findFirstSuccess_eq_none rpc _ hall]
    · intro i hi s hbefore hsucc
      simp [Chord.FindSuccessor, hmem,
        findFirstSuccess_first rpc _ i hi s hbefore hsucc]

/-- C3 witness: on a node `"a"` (id 5) with successor `"b"` (id 9) and all
fingers at `"b"`, key 12 ∉ (5, 9], `"b"` is the first candidate, its RPC
answers `"x"`, and `FindSuccessor` returns it. -/
theorem c3_find_successor_witness :
    Chord.FindSuccessor Test.rpcT Test.stC3 12 = "x" :=
  ((c3_find_successor Test.rpcT Test.stC3 12).2 (by decide)).2 0 (by decide)
    "x" (fun j hj => absurd hj (Nat.not_lt_zero j)) (by decide)

/-- C6: with the ownership test true, `Get` answers `(value, "", no
error)` exactly on a hit and the "key not found" error exactly on a miss,
which `handleStorage` surfaces as 404; with the test false, `Get` answers
no error, an empty value and the closest preceding node's address as the
forward address. -/
theorem c6_get_not_found (h : String → Nat) (st : NodeSt) (key : String) :
    (Dht.InIntervalRightInclusive (KeyToRingId h key ID_SPACE_SIZE)
        st.predecessor.id st.self.id = true →
      (∀ v, List.lookup key st.data = some v →
          Chord.Get h st key = (v, "", none)
          ∧ Transport.handleStorageGet h st key = .ok v)
      ∧ (List.lookup key st.data = none →
          Chord.Get h st key = ("", "", some "key not found")
          ∧ Transport.handleStorageGet h st key = .notFound))
    ∧ (Dht.InIntervalRightInclusive (KeyToRingId h key ID_SPACE_SIZE)
        st.predecessor.id st.self.id = false →
      Chord.Get h st key
        = ("", (Chord.closestPrecedingNode st
            (KeyToRingId h key ID_SPACE_SIZE)).address, none)) := by
  constructor
  · intro hmem
    constructor
    · intro v hv
      constructor
      · simp [Chord.Get, hmem, hv]
      · simp [Transport.handleStorageGet, Chord.Get, hmem, hv]
    · intro hv
      constructor
      · simp [Chord.Get, hmem, hv]
      · simp [Transport.handleStorageGet, Chord.Get, hmem, hv]
  · intro hmem
    simp [Chord.Get, hmem]

/-- C6 witness: the owner `"a"` of key `"k"` has no value stored, `Get`
reports the "key not found" error and the handler answers 404. -/
theorem c6_get_not_found_witness :
    Chord.Get Test.hT Test.stPredB "k" = ("", "", some "key not found")
      ∧ Transport.handleStorageGet Test.hT Test.stPredB "k" = .notFound :=
  ((c6_get_not_found Test.hT Test.stPredB "k").1 (by decide)).2 (by decide)

/-- C7 (amended): `closestPrecedingNodes(k)` returns exactly the addresses
of the finger targets in the open interval `(self.id, k)`, scanned from
index `M-1` down to `0` — and nothing else; the successor is **not**
appended (`FindSuccessor` falls back to it separately). -/
theorem c7_closest_preceding_candidates (st : NodeSt) (k : Nat) :
    Chord.closestPrecedingNodes st k
      = (st.finger.reverse.filter
          (fun f => Dht.InIntervalOpen f.node.id st.self.id k)).map
          (fun f => f.node.address) :=
  cpnsLoop_eq_filter_map st.self.id k st.finger.reverse

/-- C7 counterexample: on a fresh node `"a"` (all fingers target self) no
finger matches key 3, so the returned candidate list is empty — not the
claimed matching-fingers-plus-successor list, whose last element would be
the successor `"a"`. -/
theorem c7_counterexample :
    Chord.closestPrecedingNodes (Chord.Create Test.hT "a") 3 = []
      ∧ Chord.closestPrecedingNodes (Chord.Create Test.hT "a") 3
        ≠ ((Chord.Create Test.hT "a").finger.reverse.filter
            (fun f => Dht.InIntervalOpen f.node.id
              (Chord.Create Test.hT "a").self.id 3)).map
            (fun f => f.node.address)
          ++ [(Chord.Create Test.hT "a").successor.address] := by decide

section StabilizeLemmas

/-- If no candidate's `getPredecessor` succeeds, the probing loop reports
keep/no-live according to the flag it started with. -/
theorem stabilizeLoop_all_none (h : String → Nat) (selfRef succ : NodeRef)
    (gp : String → Option String) (l : List String) (live : Bool)
    (hall : ∀ c ∈ l, gp c = none) :
    Chord.stabilizeLoop h selfRef succ gp l live
      = (if live then .keep else .noLive) := by
  induction l generalizing live with
  | nil => rfl
  | cons c cs ih =>
    have hc := hall c (by simp)
    simp only [Chord.stabilizeLoop, hc]
    exact ih live fun x hx => hall x (by simp [hx])

/-- Every address collected by the `closestSuccessorNodes` accumulator
loop was already in the accumulator or is some finger's address. -/
theorem cssLoop_mem (selfAddr : String) (fs : List FingerEntry)
    (acc : List String) (x : String) (hx : x ∈ Chord.cssLoop selfAddr fs acc) :
    x ∈ acc ∨ ∃ f ∈ fs, x = f.node.address := by
  induction fs generalizing acc with
  | nil => exact Or.inl hx
  | cons f fs ih =>
    simp only [Chord.cssLoop] at hx
    by_cases hcond : f.node.address ≠ selfAddr ∧ f.node.address ∉ acc
    · rw [if_pos hcond] at hx
      rcases ih _ hx with hacc | ⟨g, hg, hxg⟩
      · rcases List.mem_append.mp hacc with h1 | h1
        · exact Or.inl h1
        · exact Or.inr ⟨f, by simp, by simpa using h1⟩
      · exact Or.inr ⟨g, by simp [hg], hxg⟩
    · rw [if_neg hcond] at hx
      rcases ih _ hx with hacc | ⟨g, hg, hxg⟩
      · exact Or.inl hacc
      · exact Or.inr ⟨g, by simp [hg], hxg⟩

/-- Every stabilize candidate is the current successor's address or some
finger's address. -/
theorem closestSuccessorNodes_mem (st : NodeSt) (x : String)
    (hx : x ∈ Chord.closestSuccessorNodes st) :
    x = st.successor.address ∨ ∃ f ∈ st.finger, x = f.node.address := by
  rcases cssLoop_mem st.self.address st.finger _ x hx with hacc | hf
  · by_cases hs : st.successor.address ≠ st.self.address
    · rw [if_pos hs] at hacc
      simp at hacc
      exact Or.inl hacc
    · rw [if_neg hs] at hacc
      simp at hacc
  · exact Or.inr hf

/-- An address adopted by the probing loop is either one of the probed
candidates or a non-empty returned predecessor address. -/
theorem stabilizeLoop_adopt (h : String → Nat) (selfRef succ : NodeRef)
    (gp : String → Option String) (l : List String) (live : Bool)
    (a : String)
    (hl : Chord.stabilizeLoop h selfRef succ gp l live = .adopt a) :
    a ∈ l ∨ a ≠ "" := by
  induction l generalizing live with
  | nil =>
    simp only [Chord.stabilizeLoop] at hl
    cases live <;> simp at hl
  | cons c cs ih =>
    simp only [Chord.stabilizeLoop] at hl
    cases hgp : gp c with
    | none =>
      simp only [hgp] at hl
      rcases ih live hl with hmem | hne
      · exact Or.inl (by simp [hmem])
      · exact Or.inr hne
    | some p =>
      simp only [hgp] at hl
      by_cases hp0 : p = ""
      · rw [if_pos hp0] at hl
        cases hl
        exact Or.inl (by simp)
      · rw [if_neg hp0] at hl
        by_cases hps : p = selfRef.address
        · rw [if_pos hps] at hl; cases hl
        · rw [if_neg hps] at hl
          by_cases hint : Dht.InIntervalOpen (KeyToRingId h p ID_SPACE_SIZE)
              selfRef.id succ.id = true
          · rw [if_pos hint] at hl
            cases hl
            exact Or.inr hp0
          · rw [if_neg hint] at hl
            rcases ih true hl with hmem | hne
            · exact Or.inl (by simp [hmem])
            · exact Or.inr hne

end StabilizeLemmas

/-- C4: (i) when the successor is another node and no candidate answers
the `getPredecessor` probe, stabilize sets the successor to the node
itself; (ii) the notify target is the resulting successor exactly when it
is not the node itself; (iii) starting from a state whose own address,
successor address and finger addresses are non-empty, the successor
address remains non-empty after the step. -/
theorem c4_stabilize (h : String → Nat) (gp : String → Option String)
    (st : NodeSt) :
    (st.successor.address ≠ st.self.address →
      (∀ c ∈ Chord.closestSuccessorNodes st, gp c = none) →
      (Chord.Stabilize h gp st).1.successor.address = st.self.address)
    ∧ ((Chord.Stabilize h gp st).2
        = if (Chord.Stabilize h gp st).1.successor.address = st.self.address
          then none
          else some (Chord.Stabilize h gp st).1.successor.address)
    ∧ (st.self.address ≠ "" → st.successor.address ≠ "" →
      (∀ f ∈ st.finger, f.node.address ≠ "") →
      (Chord.Stabilize h gp st).1.successor.address ≠ "") := by
  refine ⟨?_, rfl, ?_⟩
  · intro hne hall
    show (Chord.stabilizeStep h gp st).successor.address = st.self.address
    unfold Chord.stabilizeStep
    rw [if_neg hne,
      stabilizeLoop_all_none h st.self st.successor gp _ false hall]
    simp [Chord.SetSuccessor]
  · intro h1 h2 h3
    show (Chord.stabilizeStep h gp st).successor.address ≠ ""
    unfold Chord.stabilizeStep
    by_cases hself : st.successor.address = st.self.address
    · rw [if_pos hself]
      by_cases hpred : st.predecessor.address ≠ "" ∧
          st.predecessor.address ≠ st.self.address
      · rw [if_pos hpred]
        by_cases hint : Dht.InIntervalOpen
            (KeyToRingId h st.predecessor.address ID_SPACE_SIZE)
            st.self.id st.successor.id = true
        · rw [if_pos hint]
          simpa [Chord.SetSuccessor] using hpred.1
        · rw [if_neg hint]; exact h2
      · rw [if_neg hpred]; exact h2
    · rw [if_neg hself]
      cases hloop : Chord.stabilizeLoop h st.self st.successor gp
          (Chord.closestSuccessorNodes st) false with
      | noLive => simpa [Chord.SetSuccessor] using h1
      | keep => exact h2
      | adopt a =>
        simp only [Chord.SetSuccessor]
        rcases stabilizeLoop_adopt h st.self st.successor gp _ false a hloop
            with hmem | hne0
        · rcases closestSuccessorNodes_mem st a hmem with hsucc | ⟨f, hf, hfa⟩
          · simpa [hsucc] using h2
          · simpa [hfa] using h3 f hf
        · exact hne0

/-- C4 witness: node `"a"` with successor `"b"` and no candidate
answering the probe falls back to itself as successor. -/
theorem c4_stabilize_witness :
    (Chord.Stabilize Test.hT Test.gpNone Test.stAB).1.successor.address
      = Test.stAB.self.address :=
  (c4_stabilize Test.hT Test.gpNone Test.stAB).1 (by decide) (by decide)

/-- C5: after the first `resetToStartingState`, every finger `start` is
the zero value `0` instead of the claimed `(self.id + 2^i) mod 2^M` (the
`Create` table did satisfy that formula); after the second
`resetToStartingState`, the finger table is completely unchanged — its
targets still point at `"b"`, not at self — because the freshly built
table is never assigned. -/
theorem c5_reset_divergence :
    ((Chord.resetToStartingState (Chord.Create Test.hT "a")).finger.map
        (fun f => f.start) = List.replicate M 0)
    ∧ ((Chord.Create Test.hT "a").finger.map (fun f => f.start)
        = (List.range M).map (fun i =>
            ((Chord.Create Test.hT "a").self.id + 2 ^ i) % ID_SPACE_SIZE))
    ∧ ((Chord.resetToStartingState (Chord.Create Test.hT "a")).finger.map
        (fun f => f.start)
        ≠ (List.range M).map (fun i =>
            ((Chord.Create Test.hT "a").self.id + 2 ^ i) % ID_SPACE_SIZE))
    ∧ ((Chord.resetToStartingState (Chord.Create Test.hT "a")).successor
        = (Chord.Create Test.hT "a").self)
    ∧ ((Chord.resetToStartingState (Chord.Create Test.hT "a")).predecessor
        = ⟨0, ""⟩)
    ∧ (Dht2.resetToStartingState Test.stFingersB).finger
        = Test.stFingersB.finger
    ∧ ((Dht2.resetToStartingState Test.stFingersB).finger.map
        (fun f => f.node.address)
        ≠ List.replicate M (Test.stFingersB.self.address))
    ∧ ((Dht2.resetToStartingState Test.stFingersB).successor
        = Test.stFingersB.self)
    ∧ ((Dht2.resetToStartingState Test.stFingersB).predecessor
        = ⟨0, ""⟩) := by decide

/-- C8 (amended): with an empty predecessor both `CheckPredecessor`
variants change nothing; with a known predecessor the `IsInactive`-variant
clears it whenever the ping reports not-alive **or** errors, while the
`IsCrashed`-variant returns unchanged on a ping error and clears only when
a successful ping reports not-alive. -/
theorem c8_check_predecessor (h : String → Nat)
    (ping : String → Bool × Bool) (st : NodeSt) :
    (st.predecessor.address = "" →
      Chord.CheckPredecessor h ping st = st
      ∧ Dht2.CheckPredecessor h ping st = st)
    ∧ (st.predecessor.address ≠ "" →
      (Chord.CheckPredecessor h ping st
        = if (ping st.predecessor.address).1 = false
              ∨ (ping st.predecessor.address).2 = true
          then { st with predecessor := ⟨0, ""⟩ } else st)
      ∧ (Dht2.CheckPredecessor h ping st
        = if (ping st.predecessor.address).2 = false
              ∧ (ping st.predecessor.address).1 = false
          then { st with predecessor := ⟨0, ""⟩ } else st)) := by
  constructor
  · intro hpred
    constructor <;>
      simp [Chord.CheckPredecessor, Dht2.CheckPredecessor, hpred]
  · intro hpred
    rcases hping : ping st.predecessor.address with ⟨alive, errb⟩
    cases alive <;> cases errb <;>
      constructor <;>
        simp [Chord.CheckPredecessor, Dht2.CheckPredecessor,
          Chord.SetPredecessor, hpred, hping]

/-- C8 witness: node `"a"` with predecessor `"b"`, ping always erroring:
the first variant clears the predecessor, the second keeps it. -/
theorem c8_check_predecessor_witness :
    Chord.CheckPredecessor Test.hT Test.pingErr Test.stPredB
        = { Test.stPredB with predecessor := ⟨0, ""⟩ }
      ∧ Dht2.CheckPredecessor Test.hT Test.pingErr Test.stPredB
        = Test.stPredB := by
  have hc :=
    ((c8_check_predecessor Test.hT Test.pingErr Test.stPredB).2 (by decide)).1
  have hd :=
    ((c8_check_predecessor Test.hT Test.pingErr Test.stPredB).2 (by decide)).2
  exact ⟨by simpa using hc, by simpa using hd⟩

/-- C8 counterexample: node `"a"` has known predecessor `"b"`; the ping
fails with an error, yet the `IsCrashed`-variant `CheckPredecessor` leaves
the predecessor in place — contradicting the claim that both
implementations clear it whenever the ping fails. -/
theorem c8_counterexample :
    Test.stPredB.predecessor.address = "b"
      ∧ (Test.pingErr Test.stPredB.predecessor.address).2 = true
      ∧ Dht2.CheckPredecessor Test.hT Test.pingErr Test.stPredB
          = Test.stPredB
      ∧ (Dht2.CheckPredecessor Test.hT Test.pingErr
          Test.stPredB).predecessor.address = "b" := by decide

/-- C9: while the inactive flag is set the middleware refuses every
request whose path is not `/sim-recover` with 503 and no handler runs;
`/sim-recover` is always passed through; with the flag clear everything
passes. -/
theorem c9_crash_middleware (inactive : Bool) (path : String) :
    (Transport.crashMiddleware true path
        = Transport.MwOutcome.refuse 503 ↔ path ≠ "/sim-recover")
    ∧ Transport.crashMiddleware inactive "/sim-recover"
        = Transport.MwOutcome.pass
    ∧ Transport.crashMiddleware false path = Transport.MwOutcome.pass := by
  refine ⟨?_, by simp [Transport.crashMiddleware], ?_⟩
  · by_cases hp : path = "/sim-recover" <;>
      simp [Transport.crashMiddleware, Transport.StatusServiceUnavailable, hp]
  · by_cases hp : path = "/sim-recover" <;>
      simp [Transport.crashMiddleware, hp]

section SetNetworkLemmas

/-- Insertion preserves length. -/
theorem insertById_length (nd : NodeRef) (l : List NodeRef) :
    (insertById nd l).length = l.length + 1 := by
  induction l with
  | nil => rfl
  | cons x xs ih =>
    by_cases hlt : nd.id < x.id <;> simp [insertById, hlt, ih]

/-- Sorting preserves length. -/
theorem sortById_length (l : List NodeRef) :
    (sortById l).length = l.length := by
  induction l with
  | nil => rfl
  | cons x xs ih => simp [sortById, insertById_length, ih]

/-- The `selfIndex` scan yields at least `-1`. -/
theorem selfIndexLoop_ge (selfId : Nat) (l : List NodeRef) :
    -1 ≤ selfIndexLoop selfId l := by
  induction l with
  | nil => simp [selfIndexLoop]
  | cons nd rest ih =>
    by_cases hid : nd.id = selfId
    · simp [selfIndexLoop, hid]
    · simp only [selfIndexLoop, if_neg hid]
      by_cases hr : selfIndexLoop selfId rest = -1
      · simp [hr]
      · simp [hr]; omega

/-- The `selfIndex` scan yields an index below the list length. -/
theorem selfIndexLoop_lt (selfId : Nat) (l : List NodeRef) :
    selfIndexLoop selfId l < (l.length : Int) := by
  induction l with
  | nil => simp [selfIndexLoop]
  | cons nd rest ih =>
    by_cases hid : nd.id = selfId
    · simp [selfIndexLoop, hid]
    · simp only [selfIndexLoop, if_neg hid, List.length_cons]
      by_cases hr : selfIndexLoop selfId rest = -1
      · simp [hr]; omega
      · simp [hr]; omega

/-- A Go slice access with a valid index succeeds. -/
theorem listAt_isSome {α : Type} (l : List α) (i : Int) (h0 : 0 ≤ i)
    (hlen : i < (l.length : Int)) : (listAt l i).isSome := by
  unfold listAt
  rw [if_neg (by omega)]
  have ht : i.toNat < l.length := by omega
  simp [List.getElem?_eq_getElem ht]

/-- Go's truncated `%` of a non-negative value by a positive modulus is a
valid index. -/
theorem tmod_bounds (a len : Int) (hlen : 0 < len) (ha : 0 ≤ a) :
    0 ≤ Int.tmod a len ∧ Int.tmod a len < len := by
  rw [Int.tmod_eq_emod ha (Int.le_of_lt hlen)]
  exact ⟨Int.emod_nonneg a (by omega), Int.emod_lt_of_pos a hlen⟩

/-- The predecessor index `(selfIndex - 1 + len) % len` (Go truncated `%`)
is a valid index whenever `-1 ≤ selfIndex < len` and `0 < len`. -/
theorem predIdx_bounds (si L : Int) (h1 : -1 ≤ si) (h2 : si < L)
    (hL : 0 < L) :
    0 ≤ Int.tmod (si - 1 + L) L ∧ Int.tmod (si - 1 + L) L < L := by
  by_cases hcase : 0 ≤ si - 1 + L
  · exact tmod_bounds _ _ hL hcase
  · have hsi : si = -1 := by omega
    have hLe : L = 1 := by omega
    subst hsi; subst hLe
    constructor <;> decide

end SetNetworkLemmas

/-- C10: `SetNetwork` panics on the empty address list — the `nodes[0]`
default of the finger loop is out of range (and the successor/predecessor
indices would divide by zero) — and is total on every non-empty list.  The
empty list is exactly what a `PUT /network` with a missing or empty
`network` parameter produces. -/
theorem c10_set_network (h : String → Nat) (st : NodeSt) :
    Chord.SetNetwork h st [] = none
    ∧ Chord.SetNetwork h st (Transport.parseNetwork "") = none
    ∧ ∀ network : List String, network ≠ [] →
        (Chord.SetNetwork h st network).isSome := by
  refine ⟨rfl, rfl, ?_⟩
  intro network hne
  unfold Chord.SetNetwork
  set nodes := sortById (network.map fun a =>
    (⟨KeyToRingId h a ID_SPACE_SIZE, a⟩ : NodeRef)) with hnodes
  have hlen : nodes.length = network.length := by
    rw [hnodes, sortById_length, List.length_map]
  have hpos : 0 < nodes.length := by
    rw [hlen]
    exact List.length_pos.mpr hne
  have hlenpos : (0 : Int) < (nodes.length : Int) := by exact_mod_cast hpos
  have hsl1 := selfIndexLoop_ge st.self.id nodes
  have hsl2 := selfIndexLoop_lt st.self.id nodes
  have hb1 := tmod_bounds (selfIndexLoop st.self.id nodes + 1)
    (nodes.length : Int) hlenpos (by omega)
  have hb2 := predIdx_bounds (selfIndexLoop st.self.id nodes)
    (nodes.length : Int) hsl1 hsl2 hlenpos
  obtain ⟨n0, he0⟩ := Option.isSome_iff_exists.mp
    (listAt_isSome nodes 0 (by omega) hlenpos)
  obtain ⟨s1, he1⟩ := Option.isSome_iff_exists.mp
    (listAt_isSome nodes
      (Int.tmod (selfIndexLoop st.self.id nodes + 1) (nodes.length : Int))
      hb1.1 hb1.2)
  obtain ⟨s2, he2⟩ := Option.isSome_iff_exists.mp
    (listAt_isSome nodes
      (Int.tmod (selfIndexLoop st.self.id nodes - 1 + (nodes.length : Int))
        (nodes.length : Int))
      hb2.1 hb2.2)
  simp [he0, he1, he2]

/-- C10 witness: the one-element list `["b"]` is accepted. -/
theorem c10_set_network_witness :
    (Chord.SetNetwork Test.hT (Chord.Create Test.hT "a") ["b"]).isSome :=
  (c10_set_network Test.hT (Chord.Create Test.hT "a")).2.2 ["b"] (by decide)
